import Mathlib

/-
Verification of the PiCar-X robot control code (picarx package) against its
natural-language specification.  The Python source is shallowly embedded:
Python ints become ℤ, Python floats become ℚ (the claims settled here concern
branch selection, signs, exact linear arithmetic and totality, for which exact
rational arithmetic is faithful), and a Python function that can raise an
exception is embedded as an Option-returning function (none = the exception).
-/

namespace RobotSpec

/-- Embeds the list comprehension at the top of
`Interpreter.detect_direction` (examples/line_following/interpreter.py line 29):
`readings = [x + 1 if x == 0 else x for x in readings]`. -/
def subst_zero (readings : List ℤ) : List ℤ :=
  readings.map fun x => if x = 0 then x + 1 else x

/-- Embeds `Interpreter.detect_direction` of
examples/line_following/interpreter.py (lines 16-43).  `sensitivity` is the
value stored by the constructor.  The three-element unpack
`left, middle, right = readings` fails on other list shapes (ValueError), and
Python float division raises ZeroDivisionError when the denominator is zero;
both failures are embedded as `none`.  The zero-to-one substitution
(`subst_zero`) is applied to the readings before anything else, exactly as in
the source. -/
def detect_direction (sensitivity : ℚ) (readings : List ℤ) (noise_thresh : ℤ) : Option ℚ :=
  match subst_zero readings with
  | [left, middle, right] =>
    if |left - middle - (right - middle)| < noise_thresh then
      some 0
    else if right - left > 0 then
      if ((middle : ℚ) + (right : ℚ)) = 0 then none
      else some (((middle : ℚ) - (right : ℚ)) / ((middle : ℚ) + (right : ℚ)) * (-1) * sensitivity)
    else
      if ((middle : ℚ) + (left : ℚ)) = 0 then none
      else some (((middle : ℚ) - (left : ℚ)) / ((middle : ℚ) + (left : ℚ)) * sensitivity)
  | _ => none

/-- Embeds the sensitivity computation of `Interpreter.__init__`
(examples/line_following/interpreter.py line 14):
`self.sensitivity = max(0, min(sensitivity, 1)) * (1 if polarity else -1)`. -/
def interpreter_sensitivity (sensitivity : ℚ) (polarity : Bool) : ℚ :=
  max 0 (min sensitivity 1) * (if polarity then 1 else -1)

/-- Embeds the angle clamping shared by `Picarx._forward` (picarx_improved.py
lines 244-247) and `Picarx._backward` (lines 218-221):
`abs_current_angle = abs(current_angle); if abs_current_angle > 40:
abs_current_angle = 40`. -/
def clamp_angle (current_angle : ℚ) : ℚ :=
  if |current_angle| > 40 then 40 else |current_angle|

/-- Embeds the power-scale computation of `Picarx._forward`
(picarx_improved.py line 249): `power_scale = (100 - abs_current_angle) / 100.0`
on the clamped angle magnitude. -/
def forward_power_scale (current_angle : ℚ) : ℚ :=
  (100 - clamp_angle current_angle) / 100

/-- Embeds the power-scale computation of `Picarx._backward`
(picarx_improved.py line 222): `power_scale = (100 - abs_current_angle) / 100.0`
on the clamped angle magnitude. -/
def backward_power_scale (current_angle : ℚ) : ℚ :=
  (100 - clamp_angle current_angle) / 100

/-- Embeds `Picarx._forward` (picarx_improved.py lines 234-259), returning the
pair of arguments passed to `left_motor.set_speed` and
`right_motor.set_speed`.  The branch guard `(current_angle / abs_current_angle)
> 0` divides by the clamped magnitude, exactly as in the source. -/
def forward_powers (current_angle speed : ℚ) : ℚ × ℚ :=
  if current_angle ≠ 0 then
    if current_angle / clamp_angle current_angle > 0 then
      (1 * speed * forward_power_scale current_angle, -speed)
    else
      (speed, -1 * speed * forward_power_scale current_angle)
  else
    (speed, -1 * speed)

/-- Embeds `Picarx._backward` (picarx_improved.py lines 208-232), returning the
pair of arguments passed to `left_motor.set_speed` and
`right_motor.set_speed`. -/
def backward_powers (current_angle speed : ℚ) : ℚ × ℚ :=
  if current_angle ≠ 0 then
    if current_angle / clamp_angle current_angle > 0 then
      (-1 * speed, speed * backward_power_scale current_angle)
    else
      (-1 * speed * backward_power_scale current_angle, speed)
  else
    (-1 * speed, speed)

/-- Embeds `Picarx.drive` (picarx_improved.py lines 261-277):
`set_turn_angle(angle)` stores the angle that `_forward`/`_backward` then read
from `self.turn_angle`, so it is passed here directly; then
`if speed > 0: self._forward(speed) else: self._backward(-speed)`.  The result
is the (left, right) pair of `set_speed` arguments, i.e. the wheel powers
before the per-motor direction/trim calibration applied inside
`Motor.set_speed` (neutral calibration: direction +1, trim 0 passes them
through). -/
def drive (speed angle : ℚ) : ℚ × ℚ :=
  if speed > 0 then forward_powers angle speed else backward_powers angle (-speed)

/-- Embeds the Python call-arity check for `Picarx.drive(self, speed, angle)`:
both `speed` and `angle` are required positional parameters with no default,
so a call binding any other number of positional arguments raises a TypeError
(embedded as `none`). -/
def call_drive (args : List ℚ) : Option (ℚ × ℚ) :=
  match args with
  | [speed, angle] => some (drive speed angle)
  | _ => none

/-- Embeds `Control.control` of ultrasonic.py (lines 65-72):
`self.car.drive(self.speed * speed_scalar)` — a call to `drive` with a single
positional argument. -/
def ultrasonic_control (speed speed_scalar : ℚ) : Option (ℚ × ℚ) :=
  call_drive [speed * speed_scalar]

/-- Embeds the `Bus` class of examples/line_following.py (lines 22-48): a
single-slot mailbox whose `message` field starts as `None` (here `none`) and
is overwritten by `write`; `read` returns the stored message.  The lock only
serializes the two accessors and has no sequential effect. -/
structure Bus (T : Type) where
  message : Option T

/-- Embeds `Bus.__init__`: `self.message = None`. -/
def Bus.init (T : Type) : Bus T := ⟨none⟩

/-- Embeds `Bus.read`: returns the stored message. -/
def Bus.read {T : Type} (b : Bus T) : Option T := b.message

/-- Embeds `Bus.write`: overwrites the stored message. -/
def Bus.write {T : Type} (_b : Bus T) (msg : T) : Bus T := ⟨some msg⟩

/-- Embeds `Sensor.read` of examples/line_following/sensor.py (lines 37-50)
(the identical method also appears in photosensor.py lines 53-66 and
examples/line_following.py lines 94-107):
`[max(a - b, 0) for a, b in zip([c1, c2, c3], [t1, t2, t3])]` where the first
list holds the three raw ADC channel values and the second the three stored
channel trims. -/
def sensor_read (c1 c2 c3 t1 t2 t3 : ℤ) : List ℤ :=
  (([c1, c2, c3]).zip [t1, t2, t3]).map fun p => max (p.1 - p.2) 0

/-- Modelled from the spec: the instantaneous-center-of-rotation power-scale
formula of section 4.4, which is absent from the source code.  Given the
steering angle in degrees and the geometric constants L (track length) and
H (wheelbase offset): `icr = tan(90° - |angle|) * H + L/2` and
`scale = (icr - L/2) / icr`. -/
noncomputable def icr_scale (angle L H : ℝ) : ℝ :=
  (Real.tan ((90 - |angle|) * Real.pi / 180) * H + L / 2 - L / 2) /
    (Real.tan ((90 - |angle|) * Real.pi / 180) * H + L / 2)

/-- After the zero-to-one substitution, a non-negative reading is at least 1. -/
theorem subst_zero_pos (x : ℤ) (hx : 0 ≤ x) : 1 ≤ if x = 0 then x + 1 else x := by
  split_ifs with h <;> omega

/-- C1 (amended): `detect_direction` is total over all lists of three
NON-NEGATIVE integers, with the zero-to-one substitution applied before any
division; the denominators that appear are then at least 2, so no division by
zero can occur.  (Over arbitrary integers the function is not total: see the
counterexample.) -/
theorem detect_direction_total_nonneg (sensitivity : ℚ) (noise_thresh l m r : ℤ)
    (hl : 0 ≤ l) (hm : 0 ≤ m) (hr : 0 ≤ r) :
    (detect_direction sensitivity [l, m, r] noise_thresh).isSome := by
  have hl1 := subst_zero_pos l hl
  have hm1 := subst_zero_pos m hm
  have hr1 := subst_zero_pos r hr
  have hl1q : (1 : ℚ) ≤ ((if l = 0 then l + 1 else l : ℤ) : ℚ) := by exact_mod_cast hl1
  have hm1q : (1 : ℚ) ≤ ((if m = 0 then m + 1 else m : ℤ) : ℚ) := by exact_mod_cast hm1
  have hr1q : (1 : ℚ) ≤ ((if r = 0 then r + 1 else r : ℤ) : ℚ) := by exact_mod_cast hr1
  simp only [detect_direction, subst_zero, List.map_cons, List.map_nil]
  split_ifs with h1 h2 h3 h4 <;> simp_all <;> linarith

/-- C1 witness: the amended totality theorem applied at the concrete
non-negative readings (0, 0, 0). -/
theorem detect_direction_total_nonneg_witness :
    (0 : ℤ) ≤ 0 ∧ (detect_direction (1/2) [0, 0, 0] 10).isSome :=
  ⟨le_refl 0, detect_direction_total_nonneg (1/2) 10 0 0 0 (by norm_num) (by norm_num)
    (by norm_num)⟩

/-- C1 counterexample: on the integer readings (-6, -5, 5), with the default
noise threshold 10 and default stored sensitivity 1/2, `detect_direction`
reaches the right branch with denominator middle + right = 0 and divides by
zero (in Python: ZeroDivisionError), so the function is not total over all
integer triples. -/
theorem detect_direction_divzero : detect_direction (1/2) [-6, -5, 5] 10 = none := by
  norm_num [detect_direction, subst_zero]

/-- C2 (amended): on the readings (50, 500, 900) with noise threshold 10 and
the default stored sensitivity 1/2, the noise gate does not fire, the branch
guarded by right - left > 0 is taken, and the returned bias is POSITIVE
(value 1/7), equal to the right-branch formula -(mid-right)/(mid+right)
scaled by the sensitivity. -/
theorem detect_direction_50_500_900 :
    detect_direction (1/2) [50, 500, 900] 10
      = some (((500 : ℚ) - 900) / (500 + 900) * (-1) * (1/2)) ∧
    detect_direction (1/2) [50, 500, 900] 10 = some (1/7) ∧
    (0 : ℚ) < 1/7 ∧
    (900 : ℤ) - 50 > 0 ∧
    ¬ |(50 : ℤ) - 500 - (900 - 500)| < 10 := by
  refine ⟨?_, ?_, by norm_num, by norm_num, by decide⟩ <;>
    norm_num [detect_direction, subst_zero]

/-- C2 counterexample: on the readings (50, 500, 900) the returned bias is
1/7, which is not negative, refuting the claimed negative sign. -/
theorem detect_direction_50_500_900_sign :
    detect_direction (1/2) [50, 500, 900] 10 = some (1/7) ∧ ¬ (1/7 : ℚ) < 0 := by
  refine ⟨by norm_num [detect_direction, subst_zero], by norm_num⟩

/-- C9: for every rational sensitivity argument and every polarity, the stored
sensitivity has absolute value at most 1: the argument is clamped into [0, 1]
and then signed by the polarity. -/
theorem interpreter_sensitivity_bounded (sensitivity : ℚ) (polarity : Bool) :
    |interpreter_sensitivity sensitivity polarity| ≤ 1 := by
  have h1 : 0 ≤ max 0 (min sensitivity 1) := le_max_left 0 _
  have h2 : max 0 (min sensitivity 1) ≤ 1 := max_le (by norm_num) (min_le_right _ _)
  cases polarity <;>
    simp only [interpreter_sensitivity, if_true, if_false, Bool.false_eq_true,
      mul_one, mul_neg_one, abs_neg] <;>
    rw [abs_of_nonneg h1] <;> exact h2

/-- The clamped angle magnitude is positive for a nonzero angle. -/
theorem clamp_angle_pos (angle : ℚ) (ha : angle ≠ 0) : 0 < clamp_angle angle := by
  have h0 : 0 < |angle| := abs_pos.mpr ha
  unfold clamp_angle
  split_ifs with h
  · norm_num
  · exact h0

/-- The branch guard `current_angle / abs_current_angle > 0` of
`_forward`/`_backward` holds exactly when the angle is positive. -/
theorem div_clamp_pos_iff (angle : ℚ) (ha : angle ≠ 0) :
    0 < angle / clamp_angle angle ↔ 0 < angle := by
  have hc := clamp_angle_pos angle ha
  rw [div_pos_iff]
  constructor
  · rintro (⟨h, -⟩ | ⟨-, hb⟩)
    · exact h
    · exact absurd hc (not_lt.mpr hb.le)
  · intro h
    exact Or.inl ⟨h, hc⟩

/-- C5: for every commanded speed, driving with angle 0 yields
left power = speed and right power = -speed exactly; the angle-zero branch of
both `_forward` and `_backward` bypasses the power-scale computation. -/
theorem drive_straight (speed : ℚ) : drive speed 0 = (speed, -speed) := by
  unfold drive forward_powers backward_powers
  split_ifs with h h1 h2 <;> simp_all

/-- C6: for every angle of magnitude above 40 degrees, the power-scale factor
of both `_forward` and `_backward` equals the factor computed at exactly
40 degrees with either sign (the magnitude is clamped at 40). -/
theorem power_scale_clamped (angle : ℚ) (h : 40 < |angle|) :
    forward_power_scale angle = forward_power_scale 40 ∧
    backward_power_scale angle = backward_power_scale 40 ∧
    forward_power_scale angle = forward_power_scale (-40) ∧
    backward_power_scale angle = backward_power_scale (-40) := by
  have h40 : clamp_angle angle = 40 := by simp [clamp_angle, h]
  have ha : clamp_angle 40 = 40 := by norm_num [clamp_angle]
  have hb : clamp_angle (-40) = 40 := by norm_num [clamp_angle]
  simp [forward_power_scale, backward_power_scale, h40, ha, hb]

/-- C6 witness: the clamping theorem applied at the concrete angle 50. -/
theorem power_scale_clamped_witness :
    40 < |(50 : ℚ)| ∧
    (forward_power_scale 50 = forward_power_scale 40 ∧
     backward_power_scale 50 = backward_power_scale 40 ∧
     forward_power_scale 50 = forward_power_scale (-40) ∧
     backward_power_scale 50 = backward_power_scale (-40)) :=
  ⟨by norm_num, power_scale_clamped 50 (by norm_num)⟩

/-- C4 (amended): for every nonzero angle the power-scale factor of the
kinematics engine equals the LINEAR formula (100 - min(|angle|, 40)) / 100,
and lies in the interval [0, 1). -/
theorem power_scale_linear (angle : ℚ) (ha : angle ≠ 0) :
    forward_power_scale angle = (100 - min |angle| 40) / 100 ∧
    backward_power_scale angle = (100 - min |angle| 40) / 100 ∧
    0 ≤ forward_power_scale angle ∧ forward_power_scale angle < 1 := by
  have h0 : 0 < |angle| := abs_pos.mpr ha
  have hcl : clamp_angle angle = min |angle| 40 := by
    unfold clamp_angle
    split_ifs with h
    · exact (min_eq_right h.le).symm
    · exact (min_eq_left (not_lt.mp h)).symm
  have hmin1 : 0 < min |angle| 40 := lt_min h0 (by norm_num)
  have hmin2 : min |angle| 40 ≤ 40 := min_le_right _ _
  refine ⟨by rw [forward_power_scale, hcl], by rw [backward_power_scale, hcl], ?_, ?_⟩
  · rw [forward_power_scale, hcl]
    apply div_nonneg (by linarith) (by norm_num)
  · rw [forward_power_scale, hcl, div_lt_one (by norm_num)]
    linarith

/-- C4 witness: the linear power-scale theorem applied at the concrete
angle 30, where the factor is 7/10. -/
theorem power_scale_linear_witness :
    (30 : ℚ) ≠ 0 ∧
    (forward_power_scale 30 = (100 - min |(30 : ℚ)| 40) / 100 ∧
     backward_power_scale 30 = (100 - min |(30 : ℚ)| 40) / 100 ∧
     0 ≤ forward_power_scale 30 ∧ forward_power_scale 30 < 1) :=
  ⟨by norm_num, power_scale_linear 30 (by norm_num)⟩

/-- C4 counterexample: at the nonzero angle 90 the code's power-scale factor
is 3/5 (the linear formula with the magnitude clamped at 40), while the
spec's ICR formula gives 0 for every choice of the geometric constants L and
H, because tan(90° - 90°) = 0; so the code factor does not equal the ICR
formula. -/
theorem power_scale_not_icr :
    forward_power_scale 90 = 3/5 ∧ ∀ L H : ℝ, icr_scale 90 L H = 0 := by
  constructor
  · norm_num [forward_power_scale, clamp_angle]
  · intro L H
    have h : |(90 : ℝ)| = 90 := by norm_num
    simp [icr_scale, h]

/-- C3 (amended): for every speed < 0 and nonzero angle, `drive` applies the
same power-scale factor as forward motion, and the wheel that receives the
scaled power is determined by the angle sign alone — but it is the OPPOSITE
wheel from forward motion at the same angle: for angle > 0 forward motion
scales the left wheel and backward motion scales the right wheel, and for
angle < 0 the roles are exchanged. -/
theorem drive_backward_roles (speed angle : ℚ) (hs : speed < 0) (ha : angle ≠ 0) :
    backward_power_scale angle = forward_power_scale angle ∧
    (0 < angle →
      drive speed angle = (speed, -speed * backward_power_scale angle) ∧
      drive (-speed) angle = (-speed * forward_power_scale angle, speed)) ∧
    (angle < 0 →
      drive speed angle = (speed * backward_power_scale angle, -speed) ∧
      drive (-speed) angle = (-speed, speed * forward_power_scale angle)) := by
  have hns : ¬ speed > 0 := by linarith
  have hps : -speed > 0 := by linarith
  refine ⟨rfl, ?_, ?_⟩
  · intro hpos
    have hg : 0 < angle / clamp_angle angle := (div_clamp_pos_iff angle ha).mpr hpos
    constructor
    · simp only [drive, if_neg hns, backward_powers, if_pos ha, if_pos hg]
      simp only [Prod.mk.injEq]
      constructor <;> ring_nf
    · simp only [drive, if_pos hps, forward_powers, if_pos ha, if_pos hg]
      simp only [Prod.mk.injEq]
      constructor <;> ring_nf
  · intro hneg
    have hg : ¬ 0 < angle / clamp_angle angle := by
      rw [div_clamp_pos_iff angle ha]
      linarith
    constructor
    · simp only [drive, if_neg hns, backward_powers, if_pos ha, if_neg hg]
      simp only [Prod.mk.injEq]
      constructor <;> ring_nf
    · simp only [drive, if_pos hps, forward_powers, if_pos ha, if_neg hg]
      simp only [Prod.mk.injEq]
      constructor <;> ring_nf

/-- C3 witness: the amended theorem applied at speed -50 and angle 20, where
the scale is 4/5: backward gives (-50, 40) and forward gives (40, -50). -/
theorem drive_backward_roles_witness :
    ((-50 : ℚ) < 0 ∧ (20 : ℚ) ≠ 0) ∧
    (backward_power_scale 20 = forward_power_scale 20 ∧
     (0 < (20 : ℚ) →
       drive (-50) 20 = (-50, -(-50 : ℚ) * backward_power_scale 20) ∧
       drive (-(-50 : ℚ)) 20 = (-(-50 : ℚ) * forward_power_scale 20, -50)) ∧
     ((20 : ℚ) < 0 →
       drive (-50) 20 = ((-50 : ℚ) * backward_power_scale 20, -(-50 : ℚ)) ∧
       drive (-(-50 : ℚ)) 20 = (-(-50 : ℚ), (-50 : ℚ) * forward_power_scale 20))) :=
  ⟨⟨by norm_num, by norm_num⟩, drive_backward_roles (-50) 20 (by norm_num) (by norm_num)⟩

/-- C3 counterexample: at angle 20 the forward drive (40, -50) has its LEFT
power equal to the scaled magnitude 50 * scale = 40, while the backward drive
(-50, 40) has its left power at the full magnitude 50; the scaled wheel is
not the same physical wheel in the two travel directions. -/
theorem drive_backward_roles_swap :
    drive 50 20 = (40, -50) ∧ drive (-50) 20 = (-50, 40) ∧
    ¬ (|(drive 50 20).1| = 50 * forward_power_scale 20 ↔
       |(drive (-50) 20).1| = 50 * backward_power_scale 20) := by
  have h1 : drive 50 20 = (40, -50) := by
    norm_num [drive, forward_powers, forward_power_scale, clamp_angle]
  have h2 : drive (-50) 20 = (-50, 40) := by
    norm_num [drive, backward_powers, backward_power_scale, clamp_angle]
  refine ⟨h1, h2, ?_⟩
  rw [h1, h2]
  norm_num [forward_power_scale, backward_power_scale, clamp_angle]

/-- C7: writing a value to a `Bus` and reading it back with no intervening
write returns exactly the written value, for every message type, every value
and every prior state of the bus. -/
theorem bus_write_read {T : Type} (b : Bus T) (msg : T) :
    (b.write msg).read = some msg := rfl

/-- C8: every call of the obstacle-avoidance `Control.control` fails: it
invokes `Picarx.drive` with a single positional argument while `drive`
requires both `speed` and `angle` (no default), so the call raises a
TypeError (embedded as `none`) for every speed and speed scalar. -/
theorem ultrasonic_control_fails (speed speed_scalar : ℚ) :
    ultrasonic_control speed speed_scalar = none := rfl

/-- C10: every element of the list returned by the photosensor `Sensor.read`
is non-negative, for every triple of raw ADC channel values and every triple
of stored channel trims: each reading is the raw value minus the channel
trim, clamped below at 0. -/
theorem sensor_read_nonneg (c1 c2 c3 t1 t2 t3 : ℤ) :
    ∀ x ∈ sensor_read c1 c2 c3 t1 t2 t3, 0 ≤ x := by
  intro x hx
  simp only [sensor_read, List.mem_map] at hx
  obtain ⟨p, hp, rfl⟩ := hx
  exact le_max_right _ _

/-- C10 witness: the non-negativity theorem applied to the concrete raw
values (100, 50, 7) with trims (10, 60, 0), whose first reading is 90. -/
theorem sensor_read_nonneg_witness :
    (90 : ℤ) ∈ sensor_read 100 50 7 10 60 0 ∧ (0 : ℤ) ≤ 90 :=
  ⟨by decide, sensor_read_nonneg 100 50 7 10 60 0 90 (by decide)⟩

end RobotSpec
